import Mathlib

/-!
Verification of the `ts.data.json` decoder combinator engine.

The embedding models `src/json-decoder.ts` and `src/result.ts` over a closed
algebraic type `Json` of decoded-but-untyped values (the dynamic values a
decoder receives in JavaScript). Decoders pass dynamic values around, so a
decoder is modelled uniformly as a function `Json → Result Json`, exactly the
shape of the wrapped `decodeFn`. Error messages are built as literal strings,
matching the templates of the `$JsonDecoderErrors` namespace, with
`JSON.stringify` rendering modelled by `Json.render`.
-/

namespace TsDataJson

/-- Decoded-but-untyped dynamic values: the `AnyValue` input tree a decoder
inspects. `undefined` is the absent sentinel; numbers are
modelled as integers, which is what every value in the repository's examples
and tests needs, and keeps `JSON.stringify` rendering exact. -/
inductive Json where
  | null
  | undefined
  | bool (b : Bool)
  | num (n : Int)
  | str (s : String)
  | arr (elems : List Json)
  | obj (fields : List (String × Json))

mutual

/-- `JSON.stringify` of a dynamic value, as it is interpolated into error
messages (`${JSON.stringify(value)}`): strings quoted, `null` as its token,
`undefined` rendered as the token `undefined` by template interpolation. -/
def Json.render : Json → String
  | .null => "null"
  | .undefined => "undefined"
  | .bool true => "true"
  | .bool false => "false"
  | .num n => toString n
  | .str s => "\"" ++ s ++ "\""
  | .arr elems => "[" ++ Json.renderElems elems ++ "]"
  | .obj fields => "\x7b" ++ Json.renderFields fields ++ "\x7d"

/-- Comma-separated rendering of array elements. -/
def Json.renderElems : List Json → String
  | [] => ""
  | [x] => Json.render x
  | x :: y :: rest => Json.render x ++ "," ++ Json.renderElems (y :: rest)

/-- Comma-separated rendering of object members. -/
def Json.renderFields : List (String × Json) → String
  | [] => ""
  | [(k, v)] => "\"" ++ k ++ "\":" ++ Json.render v
  | (k, v) :: m :: rest =>
      "\"" ++ k ++ "\":" ++ Json.render v ++ "," ++ Json.renderFields (m :: rest)

end

/-- The two-variant outcome type of `src/result.ts`: `Ok` carries the typed
value, `Err` carries a finished message string. -/
inductive Result (α : Type) where
  | ok (value : α)
  | err (error : String)

/-- `Ok.map` / `Err.map` of `src/result.ts`: transform the success payload,
propagate a failure unchanged. -/
def Result.map {α β : Type} (fn : α → β) : Result α → Result β
  | .ok v => .ok (fn v)
  | .err e => .err e

/-- `JsonDecoder.Decoder`: an immutable wrapper around a function from a
dynamic input value to a `Result`. Decoders pass dynamic values along, so the
payload type is uniformly `Json`, as at JavaScript runtime. -/
structure Decoder where
  decodeFn : Json → Result Json

/-- `Decoder.decode`: apply the wrapped function to the input. -/
def Decoder.decode (d : Decoder) (json : Json) : Result Json :=
  d.decodeFn json

/-- `Decoder.map`: transform the success payload, propagate failure. -/
def Decoder.mapD (d : Decoder) (fn : Json → Json) : Decoder :=
  ⟨fun json => (d.decodeFn json).map fn⟩

/-- `Decoder.then`: on success, apply `fn` to the payload to obtain a new
decoder and run it on the original raw input; on failure, propagate the
failure unchanged. -/
def Decoder.thenD (d : Decoder) (fn : Json → Decoder) : Decoder :=
  ⟨fun json =>
    match d.decodeFn json with
    | .ok v => (fn v).decode json
    | .err e => .err e⟩

namespace JsonDecoderErrors

/-- `$JsonDecoderErrors.primitiveError`. -/
def primitiveError (value : Json) (tag : String) : String :=
  Json.render value ++ " is not a valid " ++ tag

/-- `$JsonDecoderErrors.dictionaryError`. -/
def dictionaryError (decoderName : String) (key : String) (error : String) : String :=
  "<" ++ decoderName ++ "> dictionary decoder failed at key \"" ++ key ++
    "\" with error: " ++ error

/-- `$JsonDecoderErrors.oneOfError`. -/
def oneOfError (decoderName : String) (json : Json) : String :=
  "<" ++ decoderName ++ "> decoder failed because " ++ Json.render json ++
    " can\x27t be decoded with any of the provided oneOf decoders"

/-- `$JsonDecoderErrors.objectError`. -/
def objectError (decoderName : String) (key : String) (error : String) : String :=
  "<" ++ decoderName ++ "> decoder failed at key \"" ++ key ++ "\" with error: " ++ error

/-- `$JsonDecoderErrors.arrayError`. -/
def arrayError (decoderName : String) (index : Nat) (error : String) : String :=
  "<" ++ decoderName ++ "> decoder failed at index \"" ++ toString index ++
    "\" with error: " ++ error

/-- `$JsonDecoderErrors.objectJsonKeyError`. -/
def objectJsonKeyError (decoderName : String) (key : String) (jsonKey : String)
    (error : String) : String :=
  "<" ++ decoderName ++ "> decoder failed at key \"" ++ key ++
    "\" (mapped from the JSON key \"" ++ jsonKey ++ "\") with error: " ++ error

/-- `$JsonDecoderErrors.objectStrictUnknownKeyError`, declared in the dist
typings; its message template is given by spec section 6. -/
def objectStrictUnknownKeyError (decoderName : String) (key : String) : String :=
  "<" ++ decoderName ++ "> decoder failed because of unexpected key \"" ++ key ++ "\""

end JsonDecoderErrors

namespace JsonDecoder

open JsonDecoderErrors

/-- The structural check `json !== null && typeof json === 'object'` used by
`object` and `dictionary`. In JavaScript `typeof` of an array is `'object'`,
so arrays pass this check; `typeof null` is also `'object'` but `null` is
excluded by the first conjunct. -/
def typeofObjectNonNull : Json → Bool
  | .obj _ => true
  | .arr _ => true
  | _ => false

/-- JavaScript member access `json[key]` on a dynamic value, as performed by
the `object` combinator (which only reaches it once `typeofObjectNonNull`
holds): own fields of an object; on an array, canonical numeric index strings
select elements and `length` yields the length; anything else is `undefined`. -/
def jsGet (json : Json) (key : String) : Json :=
  match json with
  | .obj fields =>
      match fields.lookup key with
      | some v => v
      | none => .undefined
  | .arr elems =>
      if key == "length" then .num elems.length
      else
        match (List.range elems.length).find? (fun i => toString i == key) with
        | some i => elems.getD i .undefined
        | none => .undefined
  | _ => .undefined

/-- `JsonDecoder.string`: succeed with the input when it is a string,
otherwise fail with the primitive error tagged `string`. -/
def string : Decoder :=
  ⟨fun json =>
    match json with
    | .str _ => .ok json
    | _ => .err (primitiveError json "string")⟩

/-- `JsonDecoder.number`: succeed with the input when it is a number,
otherwise fail with the primitive error tagged `number`. -/
def number : Decoder :=
  ⟨fun json =>
    match json with
    | .num _ => .ok json
    | _ => .err (primitiveError json "number")⟩

/-- `JsonDecoder.boolean`: succeed with the input when it is a boolean,
otherwise fail with the primitive error tagged `boolean`. -/
def boolean : Decoder :=
  ⟨fun json =>
    match json with
    | .bool _ => .ok json
    | _ => .err (primitiveError json "boolean")⟩

/-- The field loop of `JsonDecoder.object`: iterate the configured fields in
declaration order; read each field's source value at the key-mapped source key
when the key map has an entry, at the field name otherwise; short-circuit on
the first failing field with the object (or object-json-key) error; accumulate
the decoded values into the fresh result record in declaration order. -/
def objectFields (decoderName : String) (keyMap : Option (List (String × String)))
    (json : Json) : List (String × Decoder) → Result (List (String × Json))
  | [] => .ok []
  | (key, d) :: rest =>
      match keyMap.bind (fun km => km.lookup key) with
      | some jsonKey =>
          match d.decode (jsGet json jsonKey) with
          | .ok v =>
              (objectFields decoderName keyMap json rest).map (fun fs => (key, v) :: fs)
          | .err e => .err (objectJsonKeyError decoderName key jsonKey e)
      | none =>
          match d.decode (jsGet json key) with
          | .ok v =>
              (objectFields decoderName keyMap json rest).map (fun fs => (key, v) :: fs)
          | .err e => .err (objectError decoderName key e)

/-- `JsonDecoder.object`: on an input passing the `typeofObjectNonNull` check,
decode the configured fields via `objectFields` and wrap the fresh record;
otherwise fail with the primitive error using the decoder name as the kind. -/
def object (decoders : List (String × Decoder)) (decoderName : String)
    (keyMap : Option (List (String × String))) : Decoder :=
  ⟨fun json =>
    if typeofObjectNonNull json then
      (objectFields decoderName keyMap json decoders).map Json.obj
    else
      .err (primitiveError json decoderName)⟩

/-- `JsonDecoder.succeed`: always succeed with the input unchanged. -/
def succeed : Decoder :=
  ⟨fun json => .ok json⟩

/-- `JsonDecoder.fail`: always fail with the given message. -/
def fail (error : String) : Decoder :=
  ⟨fun _ => .err error⟩

/-- `JsonDecoder.failover`: run the decoder; pass a success through, and turn
a failure into a success with the default value. -/
def failover (defaultValue : Json) (decoder : Decoder) : Decoder :=
  ⟨fun json =>
    match decoder.decode json with
    | .ok v => .ok v
    | .err _ => .ok defaultValue⟩

/-- The candidate loop of `JsonDecoder.oneOf`: try each decoder in order
against the same input, return the first success, and fall through to the
one-of error when the list is exhausted. -/
def oneOfGo (json : Json) (decoderName : String) : List Decoder → Result Json
  | [] => .err (oneOfError decoderName json)
  | d :: rest =>
      match d.decode json with
      | .ok v => .ok v
      | .err _ => oneOfGo json decoderName rest

/-- `JsonDecoder.oneOf`. -/
def oneOf (decoders : List Decoder) (decoderName : String) : Decoder :=
  ⟨fun json => oneOfGo json decoderName decoders⟩

/-- `JsonDecoder.allOf`: a fold starting from `ok(json)` in which each step
feeds the accumulated success value to the next decoder and passes an
accumulated failure along untouched, exactly the source's `reduce`. -/
def allOf (decoders : List Decoder) : Decoder :=
  ⟨fun json =>
    decoders.foldl
      (fun prev curr =>
        match prev with
        | .ok v => curr.decode v
        | .err e => .err e)
      (.ok json)⟩

/-- The own enumerable entries a JavaScript `for...in` loop (filtered by
`hasOwnProperty`) visits on a dynamic value: an object's fields in insertion
order; an array's elements under their index keys (`length` is not
enumerable); nothing on primitives. -/
def ownEnumerableEntries : Json → List (String × Json)
  | .obj fields => fields
  | .arr elems => elems.enum.map (fun p => (toString p.1, p.2))
  | _ => []

/-- The key loop of `JsonDecoder.dictionary`: decode the value at every own
enumerable key in insertion order, short-circuiting on the first failing key
with the dictionary error, and accumulate the fresh key/value mapping. -/
def dictGo (d : Decoder) (decoderName : String) :
    List (String × Json) → Result (List (String × Json))
  | [] => .ok []
  | (key, x) :: rest =>
      match d.decode x with
      | .ok v => (dictGo d decoderName rest).map (fun fs => (key, v) :: fs)
      | .err e => .err (dictionaryError decoderName key e)

/-- `JsonDecoder.dictionary`: on an input passing the `typeofObjectNonNull`
check, decode every own enumerable entry via `dictGo`; otherwise fail with
the primitive error whose kind is the literal `dictionary`. -/
def dictionary (d : Decoder) (decoderName : String) : Decoder :=
  ⟨fun json =>
    if typeofObjectNonNull json then
      (dictGo d decoderName (ownEnumerableEntries json)).map Json.obj
    else
      .err (primitiveError json "dictionary")⟩

/-- The element loop of `JsonDecoder.array`: decode elements in index order,
short-circuiting on the first failure with the array error naming the
zero-based index, and accumulate the decoded elements in input order. -/
def arrayGo (d : Decoder) (decoderName : String) (i : Nat) : List Json → Result (List Json)
  | [] => .ok []
  | x :: rest =>
      match d.decode x with
      | .ok v => (arrayGo d decoderName (i + 1) rest).map (fun vs => v :: vs)
      | .err e => .err (arrayError decoderName i e)

/-- `JsonDecoder.array`: only a structural array (`json instanceof Array`)
enters the element loop; every other input fails with the primitive error
whose kind is the literal `array`. -/
def array (d : Decoder) (decoderName : String) : Decoder :=
  ⟨fun json =>
    match json with
    | .arr elems => (arrayGo d decoderName 0 elems).map Json.arr
    | _ => .err (primitiveError json "array")⟩

/-- Modelled from the spec: the implementation of `JsonDecoder.objectStrict`
is not among the provided sources (only its declaration in the dist typings
and its tests are). Spec section 4.4: same contract as `object` with no key
map, plus a pre-check that every key present in the input is a configured
field name; the first unconfigured input key fails immediately with the
object-strict unknown-key error, before any field is decoded. -/
def objectStrict (decoders : List (String × Decoder)) (decoderName : String) : Decoder :=
  ⟨fun json =>
    if typeofObjectNonNull json then
      match (ownEnumerableEntries json).find?
          (fun kv => !(decoders.map Prod.fst).contains kv.1) with
      | some kv => .err (objectStrictUnknownKeyError decoderName kv.1)
      | none => (object decoders decoderName none).decode json
    else
      .err (primitiveError json decoderName)⟩

end JsonDecoder

namespace JsonDecoder

open JsonDecoderErrors

/-- An accumulated failure passes through the whole `allOf` fold untouched. -/
theorem allOf_foldl_err (decoders : List Decoder) (e : String) :
    decoders.foldl
      (fun (prev : Result Json) (curr : Decoder) =>
        match prev with
        | .ok v => curr.decode v
        | .err e => .err e)
      (Result.err e) = Result.err e := by
  induction decoders with
  | nil => rfl
  | cons d ds ih => simpa [List.foldl] using ih

/-- Unfolding `allOf` one stage: the head decoder receives the input, and the
tail pipeline continues from its success value, or the failure is final. -/
theorem allOf_cons (d : Decoder) (ds : List Decoder) (json : Json) :
    (allOf (d :: ds)).decode json =
      match d.decode json with
      | .ok v => (allOf ds).decode v
      | .err e => .err e := by
  cases h : d.decode json with
  | ok v =>
      simp only [allOf, Decoder.decode, List.foldl]
      rw [show d.decodeFn json = Result.ok v from h]
  | err e =>
      simp only [allOf, Decoder.decode, List.foldl]
      rw [show d.decodeFn json = Result.err e from h]
      exact allOf_foldl_err ds e

/-- When every candidate in the list fails, the `oneOf` loop falls through to
the one-of error. -/
theorem oneOfGo_all_fail (json : Json) (decoderName : String) :
    ∀ ds : List Decoder, (∀ d ∈ ds, ∃ e, d.decode json = .err e) →
      oneOfGo json decoderName ds = .err (oneOfError decoderName json) := by
  intro ds
  induction ds with
  | nil => intro _; rfl
  | cons d rest ih =>
      intro h
      obtain ⟨e, he⟩ := h d (List.mem_cons_self d rest)
      simp only [oneOfGo, Decoder.decode] at he ⊢
      rw [he]
      exact ih (fun d' hd' => h d' (List.mem_cons_of_mem d hd'))

/-- The `oneOf` loop returns the first succeeding candidate's result, whatever
comes after it in the list. -/
theorem oneOfGo_first_success (json : Json) (decoderName : String) :
    ∀ (ds1 : List Decoder) (d : Decoder) (ds2 : List Decoder) (v : Json),
      (∀ d' ∈ ds1, ∃ e, d'.decode json = .err e) →
      d.decode json = .ok v →
      oneOfGo json decoderName (ds1 ++ d :: ds2) = .ok v := by
  intro ds1
  induction ds1 with
  | nil =>
      intro d ds2 v _ hd
      simp only [List.nil_append, oneOfGo, Decoder.decode] at hd ⊢
      rw [hd]
  | cons d0 rest ih =>
      intro d ds2 v h hd
      obtain ⟨e, he⟩ := h d0 (List.mem_cons_self d0 rest)
      simp only [List.cons_append, oneOfGo, Decoder.decode] at he ⊢
      rw [he]
      exact ih d ds2 v (fun d' hd' => h d' (List.mem_cons_of_mem d0 hd')) hd

/-- When the element decoder succeeds on every element (pairing inputs with
their decoded values in order), the element loop of `array` succeeds with the
decoded list, whatever the starting index. -/
theorem arrayGo_ok (d : Decoder) (decoderName : String) :
    ∀ (xs vs : List Json) (i : Nat),
      List.Forall₂ (fun x v => d.decode x = .ok v) xs vs →
      arrayGo d decoderName i xs = .ok vs := by
  intro xs vs i h
  induction h generalizing i with
  | nil => rfl
  | cons hx _ ih =>
      simp only [arrayGo, hx, ih, Result.map]

/-- The element loop of `array` short-circuits at the first failing element,
reporting its absolute index, independently of the elements after it. -/
theorem arrayGo_err (d : Decoder) (decoderName : String) :
    ∀ (xs1 : List Json) (x : Json) (xs2 : List Json) (e : String) (i : Nat),
      (∀ y ∈ xs1, ∃ v, d.decode y = .ok v) →
      d.decode x = .err e →
      arrayGo d decoderName i (xs1 ++ x :: xs2) =
        .err (arrayError decoderName (i + xs1.length) e) := by
  intro xs1
  induction xs1 with
  | nil =>
      intro x xs2 e i _ hx
      simp only [List.nil_append, arrayGo, hx, List.length_nil, Nat.add_zero]
  | cons y rest ih =>
      intro x xs2 e i h hx
      obtain ⟨v, hv⟩ := h y (List.mem_cons_self y rest)
      have htail := ih x xs2 e (i + 1) (fun z hz => h z (List.mem_cons_of_mem y hz)) hx
      have hlen : i + 1 + rest.length = i + (y :: rest).length := by
        simp only [List.length_cons]
        omega
      simp only [List.cons_append, arrayGo, hv, List.append_eq, htail, Result.map, hlen]

/-- When the value decoder succeeds at every entry (pairing keys and decoded
values in order), the key loop of `dictionary` succeeds with the fresh
mapping carrying the same keys. -/
theorem dictGo_ok (d : Decoder) (decoderName : String) :
    ∀ (fields vs : List (String × Json)),
      List.Forall₂ (fun p q => p.1 = q.1 ∧ d.decode p.2 = .ok q.2) fields vs →
      dictGo d decoderName fields = .ok vs := by
  intro fields
  induction fields with
  | nil =>
      intro vs h
      cases h
      rfl
  | cons p rest ih =>
      intro vs h
      cases h with
      | cons hx htail =>
          rename_i q l₂
          obtain ⟨pk, px⟩ := p
          obtain ⟨qk, qx⟩ := q
          obtain ⟨hk, hv⟩ := hx
          dsimp only at hk hv
          subst hk
          simp only [dictGo, hv, ih l₂ htail, Result.map]

/-- The key loop of `dictionary` short-circuits at the first failing key,
independently of the entries after it. -/
theorem dictGo_err (d : Decoder) (decoderName : String) :
    ∀ (entries1 : List (String × Json)) (k : String) (x : Json)
      (entries2 : List (String × Json)) (e : String),
      (∀ p ∈ entries1, ∃ v, d.decode p.2 = .ok v) →
      d.decode x = .err e →
      dictGo d decoderName (entries1 ++ (k, x) :: entries2) =
        .err (dictionaryError decoderName k e) := by
  intro entries1
  induction entries1 with
  | nil =>
      intro k x entries2 e _ hx
      simp only [List.nil_append, dictGo, hx]
  | cons p rest ih =>
      intro k x entries2 e h hx
      obtain ⟨v, hv⟩ := h p (List.mem_cons_self p rest)
      obtain ⟨pk, px⟩ := p
      have htail := ih k x entries2 e (fun q hq => h q (List.mem_cons_of_mem _ hq)) hx
      simp only [List.cons_append, dictGo, hv, List.append_eq, htail, Result.map]

/-- A successful run of the `dictionary` key loop produces a mapping with
exactly the input's keys, in order. -/
theorem dictGo_ok_keys (d : Decoder) (decoderName : String) :
    ∀ (fields vs : List (String × Json)),
      dictGo d decoderName fields = .ok vs →
      vs.map Prod.fst = fields.map Prod.fst := by
  intro fields
  induction fields with
  | nil =>
      intro vs h
      simp only [dictGo] at h
      cases h
      rfl
  | cons p rest ih =>
      intro vs h
      obtain ⟨pk, px⟩ := p
      simp only [dictGo] at h
      split at h
      · rename_i v hd
        cases hr : dictGo d decoderName rest with
        | ok ws =>
            rw [hr] at h
            simp only [Result.map] at h
            cases h
            simp only [List.map_cons, ih ws hr]
        | err e =>
            rw [hr] at h
            simp only [Result.map] at h
            exact Result.noConfusion h
      · exact Result.noConfusion h

/-- A successful run of the `object` field loop produces a record with exactly
the configured field names, in declaration order. -/
theorem objectFields_ok_keys (decoderName : String)
    (keyMap : Option (List (String × String))) (json : Json) :
    ∀ (decoders : List (String × Decoder)) (fields : List (String × Json)),
      objectFields decoderName keyMap json decoders = .ok fields →
      fields.map Prod.fst = decoders.map Prod.fst := by
  intro decoders
  induction decoders with
  | nil =>
      intro fields h
      simp only [objectFields] at h
      cases h
      rfl
  | cons p rest ih =>
      intro fields h
      obtain ⟨key, d⟩ := p
      simp only [objectFields] at h
      split at h
      all_goals split at h
      case _ =>
        rename_i jsonKey hkm v hd
        cases hr : objectFields decoderName keyMap json rest with
        | ok fs =>
            rw [hr] at h
            simp only [Result.map] at h
            cases h
            simp only [List.map_cons, ih fs hr]
        | err e =>
            rw [hr] at h
            simp only [Result.map] at h
            exact Result.noConfusion h
      case _ => exact Result.noConfusion h
      case _ =>
        rename_i hkm v hd
        cases hr : objectFields decoderName keyMap json rest with
        | ok fs =>
            rw [hr] at h
            simp only [Result.map] at h
            cases h
            simp only [List.map_cons, ih fs hr]
        | err e =>
            rw [hr] at h
            simp only [Result.map] at h
            exact Result.noConfusion h
      case _ => exact Result.noConfusion h

/-- C10: `allOf` applied to an empty sequence of decoders is the identity
decoder: for every input value, `allOf().decode(input)` succeeds with the
input unchanged. -/
theorem allOf_empty_is_identity (json : Json) :
    (allOf []).decode json = .ok json := rfl

/-- C9: `failover(defaultValue, decoder)` passes a success of `decoder`
through unchanged, succeeds with `defaultValue` (discarding the failure
message entirely) when `decoder` fails, and never returns a failure for any
input. -/
theorem failover_never_fails (defaultValue : Json) (d : Decoder) (json : Json) :
    (∀ v, d.decode json = .ok v →
        (failover defaultValue d).decode json = .ok v)
    ∧ (∀ e, d.decode json = .err e →
        (failover defaultValue d).decode json = .ok defaultValue)
    ∧ (∃ v, (failover defaultValue d).decode json = .ok v) := by
  refine ⟨?_, ?_, ?_⟩
  · intro v h
    simp only [failover, Decoder.decode] at h ⊢
    rw [h]
  · intro e h
    simp only [failover, Decoder.decode] at h ⊢
    rw [h]
  · cases h : d.decode json with
    | ok v =>
        refine ⟨v, ?_⟩
        simp only [failover, Decoder.decode] at h ⊢
        rw [h]
    | err e =>
        refine ⟨defaultValue, ?_⟩
        simp only [failover, Decoder.decode] at h ⊢
        rw [h]

/-- Witness for C9: `failover(2, number).decode(null)` succeeds with `2`. -/
theorem failover_never_fails_witness :
    (failover (.num 2) number).decode .null = .ok (.num 2) :=
  (failover_never_fails (.num 2) number .null).2.1
    (primitiveError .null "number") rfl

/-- C5: `then(f)` feeds the replacement decoder the original raw input: when
`d` succeeds with `v`, `d.then(f).decode(input)` equals `f(v).decode(input)`
on the same raw input; when `d` fails, that failure propagates unchanged. -/
theorem thenD_uses_raw_input (d : Decoder) (fn : Json → Decoder) (json : Json) :
    (∀ v, d.decode json = .ok v →
        (d.thenD fn).decode json = (fn v).decode json)
    ∧ (∀ e, d.decode json = .err e →
        (d.thenD fn).decode json = .err e) := by
  constructor
  · intro v h
    simp only [Decoder.decode] at h
    simp only [Decoder.thenD, Decoder.decode, h]
  · intro e h
    simp only [Decoder.decode] at h
    simp only [Decoder.thenD, Decoder.decode, h]

/-- Witness for C5: chaining `number` into a constant replacement decoder
hands the replacement the original raw input `1`. -/
theorem thenD_uses_raw_input_witness :
    (number.thenD (fun _ => string)).decode (.num 1) = string.decode (.num 1) :=
  (thenD_uses_raw_input number (fun _ => string) (.num 1)).1 (.num 1) rfl

/-- C4: `allOf` feeds the raw input to the first decoder and each success
value as the input to the next; a stage failure is the whole result, verbatim,
independently of the later stages; a one-element `allOf` decodes exactly as
that decoder; and `allOf(string, failover(10, number)).decode("hola")`
succeeds with `10`. -/
theorem allOf_pipeline :
    (∀ (d : Decoder) (ds : List Decoder) (json v : Json),
        d.decode json = .ok v →
        (allOf (d :: ds)).decode json = (allOf ds).decode v)
    ∧ (∀ (d : Decoder) (ds : List Decoder) (json : Json) (e : String),
        d.decode json = .err e →
        (allOf (d :: ds)).decode json = .err e)
    ∧ (∀ (d : Decoder) (json : Json), (allOf [d]).decode json = d.decode json)
    ∧ (allOf [string, failover (.num 10) number]).decode (.str "hola") =
        .ok (.num 10) := by
  refine ⟨?_, ?_, ?_, rfl⟩
  · intro d ds json v h
    rw [allOf_cons, h]
  · intro d ds json e h
    rw [allOf_cons, h]
  · intro d json
    rw [allOf_cons]
    cases h : d.decode json with
    | ok v => rfl
    | err e => rfl

/-- Witness for C4: the first stage's success value `"7"` is fed to the rest
of the pipeline. -/
theorem allOf_pipeline_witness :
    (allOf [string, number]).decode (.str "7") =
      (allOf [number]).decode (.str "7") :=
  allOf_pipeline.1 string [number] (.str "7") (.str "7") rfl

/-- C3: `oneOf` returns the result of the first candidate (in list order)
that succeeds, independently of the candidates after it; if every candidate
fails it fails with exactly the single one-of error message, retaining no
candidate's own error message. -/
theorem oneOf_first_success_or_generic_error (decoderName : String) (json : Json) :
    (∀ (ds1 : List Decoder) (d : Decoder) (ds2 : List Decoder) (v : Json),
        (∀ d' ∈ ds1, ∃ e, d'.decode json = .err e) →
        d.decode json = .ok v →
        (oneOf (ds1 ++ d :: ds2) decoderName).decode json = .ok v)
    ∧ (∀ ds : List Decoder,
        (∀ d ∈ ds, ∃ e, d.decode json = .err e) →
        (oneOf ds decoderName).decode json =
          .err (oneOfError decoderName json)) := by
  constructor
  · intro ds1 d ds2 v h hd
    exact oneOfGo_first_success json decoderName ds1 d ds2 v h hd
  · intro ds h
    exact oneOfGo_all_fail json decoderName ds h

/-- Witness for C3: `oneOf [string, number]` succeeds on `1` through its
second candidate after the first fails, and fails on `true` with the generic
one-of error. -/
theorem oneOf_first_success_or_generic_error_witness :
    ((oneOf [string, number] "string | number").decode (.num 1) = .ok (.num 1))
    ∧ ((oneOf [string, number] "string | number").decode (.bool true) =
        .err (oneOfError "string | number" (.bool true))) := by
  constructor
  · exact (oneOf_first_success_or_generic_error "string | number" (.num 1)).1
      [string] number [] (.num 1)
      (fun d' hd' => by
        rw [List.mem_singleton] at hd'
        subst hd'
        exact ⟨primitiveError (.num 1) "string", rfl⟩)
      rfl
  · exact (oneOf_first_success_or_generic_error "string | number" (.bool true)).2
      [string, number]
      (fun d hd => by
        rcases List.mem_cons.mp hd with h1 | h2
        · subst h1
          exact ⟨primitiveError (.bool true) "string", rfl⟩
        · rw [List.mem_singleton] at h2
          subst h2
          exact ⟨primitiveError (.bool true) "number", rfl⟩)

/-- C1 counterexample: an array input passes the `typeof`-based structural
check of `object`, so the claim fails for arrays: with no configured fields an
object decoder succeeds on `[]` instead of failing, and with a configured
field it decodes that field (reporting an object error at the field, not the
primitive error). -/
theorem object_on_array_counterexample :
    ((object [] "Obj" none).decode (.arr []) = .ok (.obj []))
    ∧ ((object [("x", string)] "Obj" none).decode (.arr []) =
        .err (objectError "Obj" "x" (primitiveError .undefined "string"))) :=
  ⟨rfl, rfl⟩

/-- C1 (corrected): for every input that is null, undefined, or a primitive
(boolean, number, string) — arrays excluded, since `typeof` of an array is
`'object'` — a decoder built by `object` fails with the primitive error using
the decoder name as the kind, whatever the configured decoders and key map
(so it never decodes any field for such inputs). -/
theorem object_rejects_null_and_primitives
    (decoders : List (String × Decoder)) (decoderName : String)
    (keyMap : Option (List (String × String))) (json : Json)
    (h : json = .null ∨ json = .undefined ∨ (∃ b, json = .bool b) ∨
        (∃ n, json = .num n) ∨ (∃ s, json = .str s)) :
    (object decoders decoderName keyMap).decode json =
      .err (primitiveError json decoderName) := by
  rcases h with rfl | rfl | ⟨b, rfl⟩ | ⟨n, rfl⟩ | ⟨s, rfl⟩ <;> rfl

/-- Witness for C1 (corrected): a null input fails with the primitive error
naming the decoder. -/
theorem object_rejects_null_and_primitives_witness :
    (object [("x", string)] "Obj" none).decode .null =
      .err (primitiveError .null "Obj") :=
  object_rejects_null_and_primitives [("x", string)] "Obj" none .null (Or.inl rfl)

/-- C6: every successful `object` decode produces a fresh record whose keys
are exactly the configured field names, in declaration order — unconfigured
source keys are absent from the output. -/
theorem object_success_has_exactly_configured_keys
    (decoders : List (String × Decoder)) (decoderName : String)
    (keyMap : Option (List (String × String))) (json r : Json)
    (h : (object decoders decoderName keyMap).decode json = .ok r) :
    ∃ fields, r = .obj fields ∧ fields.map Prod.fst = decoders.map Prod.fst := by
  simp only [object, Decoder.decode] at h
  split at h
  · cases hm : objectFields decoderName keyMap json decoders with
    | ok fields =>
        rw [hm] at h
        simp only [Result.map] at h
        cases h
        exact ⟨fields, rfl, objectFields_ok_keys decoderName keyMap json decoders fields hm⟩
    | err e =>
        rw [hm] at h
        simp only [Result.map] at h
        exact Result.noConfusion h
  · exact Result.noConfusion h

/-- Witness for C6: decoding `{firstname, lastname, extra}` against a decoder
configured only for `firstname`/`lastname` yields a record whose keys are
exactly `firstname` and `lastname` — no `extra`. -/
theorem object_success_has_exactly_configured_keys_witness :
    ∃ fields,
      (Json.obj [("firstname", Json.str "John"), ("lastname", Json.str "Doe")]) = .obj fields
      ∧ fields.map Prod.fst =
          ([("firstname", string), ("lastname", string)] :
            List (String × Decoder)).map Prod.fst :=
  object_success_has_exactly_configured_keys
    [("firstname", string), ("lastname", string)] "User" none
    (.obj [("firstname", .str "John"), ("lastname", .str "Doe"), ("extra", .bool true)])
    (.obj [("firstname", .str "John"), ("lastname", .str "Doe")]) rfl

/-- C7: `array` fails on every non-array input with the primitive error of
kind `array`; it decodes elements in index order, failing at the first
failing element with the array error naming its zero-based index and the
nested error, independently of later elements; and when all elements succeed
it produces the new ordered sequence of decoded elements. -/
theorem array_index_order_and_short_circuit (d : Decoder) (decoderName : String) :
    (∀ json : Json, (∀ elems, json ≠ .arr elems) →
        (array d decoderName).decode json = .err (primitiveError json "array"))
    ∧ (∀ (xs1 : List Json) (x : Json) (xs2 : List Json) (e : String),
        (∀ y ∈ xs1, ∃ v, d.decode y = .ok v) →
        d.decode x = .err e →
        (array d decoderName).decode (.arr (xs1 ++ x :: xs2)) =
          .err (arrayError decoderName xs1.length e))
    ∧ (∀ (xs vs : List Json),
        List.Forall₂ (fun x v => d.decode x = .ok v) xs vs →
        (array d decoderName).decode (.arr xs) = .ok (.arr vs)) := by
  refine ⟨?_, ?_, ?_⟩
  · intro json h
    cases json with
    | arr elems => exact absurd rfl (h elems)
    | null => rfl
    | undefined => rfl
    | bool b => rfl
    | num n => rfl
    | str s => rfl
    | obj fields => rfl
  · intro xs1 x xs2 e h hx
    have hgo := arrayGo_err d decoderName xs1 x xs2 e 0 h hx
    simp only [array, Decoder.decode, hgo, Result.map, Nat.zero_add]
  · intro xs vs h
    have hgo := arrayGo_ok d decoderName xs vs 0 h
    simp only [array, Decoder.decode, hgo, Result.map]

/-- Witness for C7: decoding `[1, "2"]` as a number array fails at index 1
with the nested primitive error for `"2"`. -/
theorem array_index_order_and_short_circuit_witness :
    (array number "number[]").decode (.arr [.num 1, .str "2"]) =
      .err (arrayError "number[]" 1 (primitiveError (.str "2") "number")) := by
  have h := (array_index_order_and_short_circuit number "number[]").2.1
    [.num 1] (.str "2") [] (primitiveError (.str "2") "number")
    (fun y hy => by
      rw [List.mem_singleton] at hy
      subst hy
      exact ⟨.num 1, rfl⟩)
    rfl
  simpa using h

/-- C8 counterexample: an array input passes the `typeof`-based structural
check of `dictionary`, so the claim fails for arrays: `[5]` is not a
structural object, yet the dictionary decoder succeeds on it (with the index
as the key) instead of failing with the primitive error of kind
`dictionary`. -/
theorem dictionary_on_array_counterexample :
    (dictionary number "Dict").decode (.arr [.num 5]) =
      .ok (.obj [("0", .num 5)]) := rfl

/-- C8 (corrected): `dictionary` fails with the primitive error of kind
`dictionary` whenever the input is null, undefined, or a primitive — arrays,
like structural objects, are accepted, their elements keyed by index — and on
an accepted structural object it decodes the value at every key in insertion
order, fails at the first failing key with the dictionary error, and on
success produces a fresh mapping with exactly the input's key set. -/
theorem dictionary_keys_and_short_circuit (d : Decoder) (decoderName : String) :
    (∀ json : Json, (json = .null ∨ json = .undefined ∨ (∃ b, json = .bool b) ∨
        (∃ n, json = .num n) ∨ (∃ s, json = .str s)) →
        (dictionary d decoderName).decode json =
          .err (primitiveError json "dictionary"))
    ∧ (∀ (entries1 : List (String × Json)) (k : String) (x : Json)
          (entries2 : List (String × Json)) (e : String),
        (∀ p ∈ entries1, ∃ v, d.decode p.2 = .ok v) →
        d.decode x = .err e →
        (dictionary d decoderName).decode (.obj (entries1 ++ (k, x) :: entries2)) =
          .err (dictionaryError decoderName k e))
    ∧ (∀ fields vs : List (String × Json),
        List.Forall₂ (fun p q => p.1 = q.1 ∧ d.decode p.2 = .ok q.2) fields vs →
        (dictionary d decoderName).decode (.obj fields) = .ok (.obj vs))
    ∧ (∀ (fields : List (String × Json)) (r : Json),
        (dictionary d decoderName).decode (.obj fields) = .ok r →
        ∃ vs, r = .obj vs ∧ vs.map Prod.fst = fields.map Prod.fst) := by
  refine ⟨?_, ?_, ?_, ?_⟩
  · intro json h
    rcases h with rfl | rfl | ⟨b, rfl⟩ | ⟨n, rfl⟩ | ⟨s, rfl⟩ <;> rfl
  · intro entries1 k x entries2 e h hx
    have hgo := dictGo_err d decoderName entries1 k x entries2 e h hx
    simp only [dictionary, Decoder.decode, typeofObjectNonNull, ownEnumerableEntries,
      if_true, hgo, Result.map]
  · intro fields vs h
    have hgo := dictGo_ok d decoderName fields vs h
    simp only [dictionary, Decoder.decode, typeofObjectNonNull, ownEnumerableEntries,
      if_true, hgo, Result.map]
  · intro fields r h
    simp only [dictionary, Decoder.decode, typeofObjectNonNull, ownEnumerableEntries,
      if_true] at h
    cases hm : dictGo d decoderName fields with
    | ok vs =>
        rw [hm] at h
        simp only [Result.map] at h
        cases h
        exact ⟨vs, rfl, dictGo_ok_keys d decoderName fields vs hm⟩
    | err e =>
        rw [hm] at h
        simp only [Result.map] at h
        exact Result.noConfusion h

/-- Witness for C8 (corrected): a dictionary of numbers fails at key `b` with
the nested primitive error for `"x"`. -/
theorem dictionary_keys_and_short_circuit_witness :
    (dictionary number "Dict<number>").decode
        (.obj [("a", .num 1), ("b", .str "x")]) =
      .err (dictionaryError "Dict<number>" "b" (primitiveError (.str "x") "number")) := by
  have h := (dictionary_keys_and_short_circuit number "Dict<number>").2.1
    [("a", .num 1)] "b" (.str "x") [] (primitiveError (.str "x") "number")
    (fun p hp => by
      rw [List.mem_singleton] at hp
      subst hp
      exact ⟨.num 1, rfl⟩)
    rfl
  simpa using h

/-- Bridge between the boolean `List.contains` used by `objectStrict` and
propositional membership. -/
theorem list_contains_iff (l : List String) (a : String) :
    l.contains a = true ↔ a ∈ l :=
  ⟨List.mem_of_elem_eq_true, List.elem_eq_true_of_mem⟩

/-- C2 (spec-modelled): on a non-null structural-object input, `objectStrict`
fails with the unknown-key error naming the first input key that is not a
configured field name (whatever the field decoders, so no field is decoded),
and when every input key is configured it behaves identically to `object`
with the same decoders and name and no key map. -/
theorem objectStrict_unknown_key_or_object (decoders : List (String × Decoder))
    (decoderName : String) :
    (∀ (f1 : List (String × Json)) (k : String) (v : Json) (f2 : List (String × Json)),
        (∀ key ∈ f1.map Prod.fst, key ∈ decoders.map Prod.fst) →
        k ∉ decoders.map Prod.fst →
        (objectStrict decoders decoderName).decode (.obj (f1 ++ (k, v) :: f2)) =
          .err (objectStrictUnknownKeyError decoderName k))
    ∧ (∀ fields : List (String × Json),
        (∀ key ∈ fields.map Prod.fst, key ∈ decoders.map Prod.fst) →
        (objectStrict decoders decoderName).decode (.obj fields) =
          (object decoders decoderName none).decode (.obj fields)) := by
  constructor
  · intro f1 k v f2 hconf hk
    have hcont : (decoders.map Prod.fst).contains k = false := by
      cases hb : (decoders.map Prod.fst).contains k
      · rfl
      · exact absurd ((list_contains_iff _ _).mp hb) hk
    have hfind : ∀ f1 : List (String × Json),
        (∀ key ∈ f1.map Prod.fst, key ∈ decoders.map Prod.fst) →
        (f1 ++ (k, v) :: f2).find?
            (fun kv => !(decoders.map Prod.fst).contains kv.1) = some (k, v) := by
      intro f1
      induction f1 with
      | nil =>
          intro _
          rw [List.nil_append]
          refine List.find?_cons_of_pos _ ?_
          show (!(decoders.map Prod.fst).contains k) = true
          rw [hcont]
          rfl
      | cons p rest ih =>
          intro hc
          have hp : p.1 ∈ decoders.map Prod.fst := hc p.1 (by simp)
          have htrue := (list_contains_iff (decoders.map Prod.fst) p.1).mpr hp
          rw [List.cons_append]
          rw [List.find?_cons_of_neg _ (by
            intro hcp
            have hcp' : (!(decoders.map Prod.fst).contains p.1) = true := hcp
            rw [htrue] at hcp'
            exact Bool.noConfusion hcp')]
          exact ih (fun key hkey => hc key (by simp [hkey]))
    simp only [objectStrict, Decoder.decode, typeofObjectNonNull, ownEnumerableEntries,
      if_true, hfind f1 hconf]
  · intro fields hconf
    have hnone : fields.find?
        (fun kv => !(decoders.map Prod.fst).contains kv.1) = none := by
      apply List.find?_eq_none.mpr
      intro kv hkv
      have hm : kv.1 ∈ decoders.map Prod.fst := hconf kv.1 (List.mem_map_of_mem _ hkv)
      have htrue := (list_contains_iff (decoders.map Prod.fst) kv.1).mpr hm
      intro hcp
      have hcp' : (!(decoders.map Prod.fst).contains kv.1) = true := hcp
      rw [htrue] at hcp'
      exact Bool.noConfusion hcp'
    simp only [objectStrict, Decoder.decode, typeofObjectNonNull, ownEnumerableEntries,
      if_true, hnone]

/-- Witness for C2: the strict user decoder fails on an extra `email` key with
the unknown-key error, and agrees with `object` when the keys match exactly. -/
theorem objectStrict_unknown_key_or_object_witness :
    ((objectStrict [("firstname", string), ("lastname", string)] "User").decode
        (.obj [("firstname", .str "John"), ("lastname", .str "Doe"), ("email", .str "e")]) =
      .err (objectStrictUnknownKeyError "User" "email"))
    ∧ ((objectStrict [("firstname", string), ("lastname", string)] "User").decode
        (.obj [("firstname", .str "John"), ("lastname", .str "Doe")]) =
      (object [("firstname", string), ("lastname", string)] "User" none).decode
        (.obj [("firstname", .str "John"), ("lastname", .str "Doe")])) := by
  constructor
  · have h := (objectStrict_unknown_key_or_object
      [("firstname", string), ("lastname", string)] "User").1
      [("firstname", .str "John"), ("lastname", .str "Doe")] "email" (.str "e") []
      (by intro key hkey; simpa using hkey)
      (by simp)
    simpa using h
  · exact (objectStrict_unknown_key_or_object
      [("firstname", string), ("lastname", string)] "User").2
      [("firstname", .str "John"), ("lastname", .str "Doe")]
      (by intro key hkey; simpa using hkey)

end JsonDecoder

end TsDataJson
